import Mathlib

/-!
Verification development for the arca-gateway core.

Shallow embedding of:
- the sliding-window rate limiter (internal/middleware/ratelimit.go),
- the MCP protocol bridge client (internal/mcp/client.go),
- the JWT manager (internal/auth, concatenated into client.go).

Time is modelled as an integer number of seconds.  Go time.Time values
become Int timestamps, time.Duration values become Int second counts;
a.After(b) is a > b, a.Add(d) is a + d, a.Sub(b) is a - b.
-/

namespace ArcaGateway

abbrev Time := Int

/-! ## Rate limiter: internal/middleware/ratelimit.go -/

/-- The key to sliding-window table.  The Go map[string]*slidingWindow is
modelled extensionally as a function from key to the optional list of
admitted timestamps (each slidingWindow holds only its timestamps
slice); a key absent from the map is sent to none. -/
abbrev WindowTable := String → Option (List Time)

/-- The RateLimiter struct. -/
structure RateLimiter where
  requests : WindowTable
  limit : Int
  windowSize : Time

/-- A write to the table: the Go statement requests[key] = window. -/
def setKey (requests : WindowTable) (key : String) (w : List Time) : WindowTable :=
  fun k => if k == key then some w else requests k

/-- The timestamp filtering pass shared by Allow and cleanup:
keep exactly the timestamps ts with ts.After(cutoff), i.e. cutoff < ts. -/
def filterWindow (cutoff : Time) (ts : List Time) : List Time :=
  ts.filter (fun t => decide (cutoff < t))

/-- The window currently stored for a key; an absent key behaves as an
empty window (Go creates an empty slidingWindow on first access). -/
def windowOf (rl : RateLimiter) (key : String) : List Time :=
  (rl.requests key).getD []

/-- Result triple of Allow: (allowed, remaining, resetIn). -/
structure AllowResult where
  allowed : Bool
  remaining : Int
  resetIn : Time
  deriving Repr, DecidableEq

/-- Allow, from ratelimit.go lines 109-156:
cutoff := now - windowSize; limit := customLimit if customLimit > 0 else
the default; drop timestamps ≤ cutoff; remaining := limit - len(window);
on remaining ≤ 0 reject with resetIn = timestamps[0] + windowSize - now
(or windowSize if the filtered window is empty); otherwise append now and
admit with remaining - 1. -/
def RateLimiter.allow (rl : RateLimiter) (key : String) (customLimit : Int)
    (now : Time) : AllowResult × RateLimiter :=
  let cutoff := now - rl.windowSize
  let limit := if 0 < customLimit then customLimit else rl.limit
  let window := windowOf rl key
  let newTimestamps := filterWindow cutoff window
  let remaining := limit - (newTimestamps.length : Int)
  if remaining ≤ 0 then
    if 0 < newTimestamps.length then
      let oldestInWindow := newTimestamps.headD 0
      (⟨false, 0, oldestInWindow + rl.windowSize - now⟩,
        { rl with requests := setKey rl.requests key newTimestamps })
    else
      (⟨false, 0, rl.windowSize⟩,
        { rl with requests := setKey rl.requests key newTimestamps })
  else
    (⟨true, remaining - 1, 0⟩,
      { rl with requests := setKey rl.requests key (newTimestamps ++ [now]) })

/-- One pass of the periodic cleanup goroutine body (ratelimit.go lines
76-96): every present window is re-filtered against now - windowSize and
keys whose filtered window is empty are deleted from the map. -/
def cleanupPass (windowSize : Time) (now : Time) (requests : WindowTable) :
    WindowTable :=
  fun k =>
    match requests k with
    | none => none
    | some ts =>
      let newTimestamps := filterWindow (now - windowSize) ts
      if newTimestamps.isEmpty then none else some newTimestamps

/-- NewRateLimiter defaulting (ratelimit.go lines 43-60): zero limit
becomes 1000 and zero window becomes one minute; the table starts empty. -/
def newRateLimiter (limit : Int) (windowSize : Time) : RateLimiter :=
  { requests := fun _ => none
    limit := if limit = 0 then 1000 else limit
    windowSize := if windowSize = 0 then 60 else windowSize }

/-- An operation against the limiter state: an Allow call or one cleanup
pass, each observing its own clock reading. -/
inductive RLOp where
  | allowOp (key : String) (customLimit : Int) (now : Time)
  | cleanupOp (now : Time)
  deriving Repr, DecidableEq

/-- The clock reading observed by an operation. -/
def RLOp.time : RLOp → Time
  | .allowOp _ _ now => now
  | .cleanupOp now => now

/-- State transition of one operation. -/
def RateLimiter.step (rl : RateLimiter) : RLOp → RateLimiter
  | .allowOp key customLimit now => (rl.allow key customLimit now).2
  | .cleanupOp now => { rl with requests := cleanupPass rl.windowSize now rl.requests }

/-- Run a sequence of operations. -/
def RateLimiter.run (rl : RateLimiter) (ops : List RLOp) : RateLimiter :=
  ops.foldl RateLimiter.step rl

/-- Every timestamp stored anywhere in the table is at most the given
bound (what a monotone clock guarantees of past Allow calls). -/
def timesBounded (requests : WindowTable) (bound : Time) : Prop :=
  ∀ k ts, requests k = some ts → ∀ t ∈ ts, t ≤ bound

/-- Run a list of Allow calls, collecting each result triple in order. -/
def allowSeq (rl : RateLimiter) (calls : List (String × Int × Time)) :
    List AllowResult × RateLimiter :=
  calls.foldl
    (fun acc call =>
      let r := acc.2.allow call.1 call.2.1 call.2.2
      (acc.1 ++ [r.1], r.2))
    ([], rl)

/-! ## Rate-limit middleware configuration (ratelimit.go lines 158-230) -/

/-- The fields of RateLimitConfig consumed by the middleware decision:
the default limit, the window size, and the optional CustomLimits map
(nil in Go is modelled as none).  The key extractor is modelled by
passing the derived key explicitly. -/
structure RLConfig where
  limit : Int
  windowSize : Time
  customLimits : Option (List (String × Int))
  deriving Repr, DecidableEq

/-- The default key derivation (ratelimit.go lines 168-175 and 220-226):
the tenant id if authenticated (non-nil uuid), otherwise the client IP. -/
def keyFor (tenantID : Option String) (ip : String) : String :=
  match tenantID with
  | some t => "tenant:" ++ t
  | none => "ip:" ++ ip

/-- The custom limit the middleware passes to Allow (ratelimit.go lines
177-183): 0 unless config.CustomLimits is non-nil and contains the
derived key. -/
def customLimitFor (cfg : RLConfig) (key : String) : Int :=
  match cfg.customLimits with
  | none => 0
  | some m =>
    match m.lookup key with
    | some v => v
    | none => 0

/-- One admission decision of RateLimitMiddleware (ratelimit.go lines
162-199): derive the key, look up the custom limit, call Allow. -/
def rateLimitMiddlewareStep (cfg : RLConfig) (rl : RateLimiter)
    (tenantID : Option String) (ip : String) (now : Time) :
    AllowResult × RateLimiter :=
  let key := keyFor tenantID ip
  rl.allow key (customLimitFor cfg key) now

/-- A write to a map[string]int literal modelled as an association list:
overwrite the binding if present, append it otherwise. -/
def setLimit (l : List (String × Int)) (k : String) (v : Int) :
    List (String × Int) :=
  if (l.lookup k).isSome then
    l.map (fun p => if p.1 == k then (k, v) else p)
  else
    l ++ [(k, v)]

/-- The per-plan limits table that TenantRateLimitMiddleware builds
(ratelimit.go lines 205-215): the four plan entries, merged with the
caller-supplied baseLimits overrides. -/
def tenantPlanLimits (baseLimits : List (String × Int)) : List (String × Int) :=
  baseLimits.foldl (fun acc kv => setLimit acc kv.1 kv.2)
    [("free", 100), ("starter", 500), ("pro", 2000), ("enterprise", 10000)]

set_option linter.unusedVariables false in
/-- The RateLimitConfig that TenantRateLimitMiddleware actually passes on
(ratelimit.go lines 217-229): Limit 1000, WindowSize one minute, and the
tenant/IP key extractor.  CustomLimits is left unset, so the plan-limits
table built above, and with it baseLimits, never reaches the config. -/
def tenantRateLimitConfig (baseLimits : List (String × Int)) : RLConfig :=
  { limit := 1000, windowSize := 60, customLimits := none }

/-! ## Protocol bridge client: internal/mcp/client.go -/

/-- MCPError: the structured error embedded in a response envelope. -/
structure MCPError where
  code : String
  message : String
  details : String
  deriving Repr, DecidableEq

/-- MCPResponse: the response envelope.  The data payload map is
abstracted to a list of key/value pairs; its structure is owned by the
downstream engine and plays no role in control flow. -/
structure MCPResponse where
  success : Bool
  requestID : String
  jobID : String
  data : List (String × String)
  error : Option MCPError
  timestamp : String
  deriving Repr, DecidableEq

/-- The errors doRequest can return, one constructor per return site:
the sentinel errors, the generic non-2xx status error, the wrapped
logical MCP error, and the unmarshal failure. -/
inductive ReqError where
  | unavailable
  | unauthorized
  | forbidden
  | notFound
  | rateLimited
  | statusError (status : Int)
  | mcpError (code : String) (message : String)
  | unmarshalError
  deriving Repr, DecidableEq

/-- The body of an HTTP reply as seen after io.ReadAll: either it parses
as an MCPResponse or json.Unmarshal fails. -/
inductive ReplyBody where
  | parsed (resp : MCPResponse)
  | unparsable
  deriving Repr, DecidableEq

/-- The outcome of one httpClient.Do call: a transport failure (Do
returns an error) or an HTTP reply with a status code and a body. -/
inductive Reply where
  | transportFailure
  | http (status : Int) (body : ReplyBody)
  deriving Repr, DecidableEq

/-- doRequest (client.go lines 437-498), abstracted over the wire: a Do
error is wrapped as ErrMCPUnavailable; then the status switch maps 401,
403, 404, 429 to the sentinel errors and any other non-2xx status to a
generic status error; a 2xx body that fails to unmarshal is an error;
finally a parsed envelope with Success false and a non-nil Error is
converted to the wrapped logical error, and everything else is returned
as the response. -/
def doRequest (reply : Reply) : Except ReqError MCPResponse :=
  match reply with
  | .transportFailure => .error .unavailable
  | .http status body =>
    if status = 200 ∨ status = 201 ∨ status = 202 then
      match body with
      | .unparsable => .error .unmarshalError
      | .parsed resp =>
        match resp.error with
        | some e => if resp.success then .ok resp else .error (.mcpError e.code e.message)
        | none => .ok resp
    else if status = 401 then .error .unauthorized
    else if status = 403 then .error .forbidden
    else if status = 404 then .error .notFound
    else if status = 429 then .error .rateLimited
    else .error (.statusError status)

/-- The terminal (never retried) errors of execute (client.go line 424):
ErrMCPUnauthorized and ErrMCPForbidden. -/
def isTerminal (e : ReqError) : Bool :=
  e == .unauthorized || e == .forbidden

/-- True when an attempt outcome is an error that execute will retry. -/
def isRetryableErr (r : Except ReqError MCPResponse) : Bool :=
  match r with
  | .error e => !isTerminal e
  | .ok _ => false

/-- Observable events of one execute call: the backoff sleeps and the
delivery attempts, in order. -/
inductive Ev where
  | sleep (d : Int)
  | attempt (n : Nat)
  deriving Repr, DecidableEq

/-- The error execute returns: either a terminal error returned
immediately, or the wrapped failure after the attempt budget is
exhausted, carrying the attempt count maxRetries+1 and the last error. -/
inductive ExecError where
  | immediate (e : ReqError)
  | exhausted (attempts : Nat) (lastErr : Option ReqError)
  deriving Repr, DecidableEq

/-- The retry loop of execute (client.go lines 415-433), structured on
remaining fuel (maxRetries + 1 - attempt).  Before every attempt other
than the first it sleeps retryDelay * attempt with no deadline check;
a terminal error returns immediately; any other error is recorded as
lastErr and retried; fuel exhaustion returns the wrapped error. -/
def executeLoop (maxRetries : Nat) (retryDelay : Int)
    (step : Nat → Except ReqError MCPResponse) :
    Nat → Nat → Option ReqError → Except ExecError MCPResponse × List Ev
  | 0, _, lastErr => (.error (.exhausted (maxRetries + 1) lastErr), [])
  | fuel + 1, attempt, _ =>
    let pre : List Ev :=
      if 0 < attempt then [.sleep (retryDelay * (attempt : Int))] else []
    match step attempt with
    | .ok resp => (.ok resp, pre ++ [.attempt attempt])
    | .error e =>
      if isTerminal e then
        (.error (.immediate e), pre ++ [.attempt attempt])
      else
        let rest := executeLoop maxRetries retryDelay step fuel (attempt + 1) (some e)
        (rest.1, pre ++ [.attempt attempt] ++ rest.2)

/-- The outcome of one delivery attempt.  The request is built with
http.NewRequestWithContext, so when the caller-supplied deadline has
already elapsed httpClient.Do fails and the attempt is a transport
failure (wrapped as ErrMCPUnavailable); otherwise the wire decides. -/
def stepOf (ctxExpired : Bool) (replies : Nat → Reply) (attempt : Nat) :
    Except ReqError MCPResponse :=
  doRequest (if ctxExpired then .transportFailure else replies attempt)

/-- execute (client.go lines 412-434): run the retry loop from attempt 0
with fuel maxRetries + 1 and no recorded error. -/
def execute (maxRetries : Nat) (retryDelay : Int) (ctxExpired : Bool)
    (replies : Nat → Reply) : Except ExecError MCPResponse × List Ev :=
  executeLoop maxRetries retryDelay (stepOf ctxExpired replies) (maxRetries + 1) 0 none

/-- Predicate selecting attempt events. -/
def isAttemptEv : Ev → Bool
  | .attempt _ => true
  | .sleep _ => false

/-- Predicate selecting sleep events. -/
def isSleepEv : Ev → Bool
  | .attempt _ => false
  | .sleep _ => true

/-- Number of delivery attempts recorded in an event trace. -/
def numAttempts (evs : List Ev) : Nat := (evs.filter isAttemptEv).length

/-- Number of backoff sleeps recorded in an event trace. -/
def numSleeps (evs : List Ev) : Nat := (evs.filter isSleepEv).length

/-! ## JWT manager: the auth part of client.go

Roles, scopes and token types are string types in models.go and the auth
package; they are modelled as String.  golang-jwt v5 semantics modelled
below: ParseWithClaims calls the keyfunc, verifies the signature, and
then runs the default claims validator, which checks only ExpiresAt and
NotBefore; Issuer, Audience and IssuedAt are validated only when the
WithIssuer / WithAudience / WithIssuedAt parser options are passed, and
ValidateToken passes no options. -/

/-- The fields of models.User read by generateToken. -/
structure User where
  id : String
  tenantID : String
  email : String
  name : String
  role : String
  scopes : List String
  deriving Repr, DecidableEq

/-- jwt.RegisteredClaims as populated and validated here.  NumericDate
fields are optional: a forged token need not carry them, and golang-jwt
v5 skips the check for an absent field. -/
structure RegisteredClaims where
  jti : String
  sub : String
  iss : String
  aud : List String
  iat : Option Time
  nbf : Option Time
  exp : Option Time
  deriving Repr, DecidableEq

/-- The custom Claims struct: the embedded registered claims plus the
identity, permission and metadata fields. -/
structure Claims where
  reg : RegisteredClaims
  userID : String
  tenantID : String
  role : String
  scopes : List String
  tokenType : String
  email : String
  name : String
  deriving Repr, DecidableEq

/-- JOSE signing algorithms relevant here.  hs256, hs384 and hs512 are
the jwt.SigningMethodHMAC family; the others stand for any non-HMAC
method a presented token may declare. -/
inductive Alg where
  | hs256
  | hs384
  | hs512
  | rs256
  | es256
  | algNone
  deriving Repr, DecidableEq

/-- Membership in the jwt.SigningMethodHMAC family, the type the keyfunc
checks with a type assertion. -/
def Alg.isHMAC : Alg → Bool
  | .hs256 => true
  | .hs384 => true
  | .hs512 => true
  | _ => false

/-- An idealised MAC: it records the algorithm, key and payload that
produced it.  Verification succeeds exactly when all three match
(collision-free idealisation of HMAC). -/
structure Mac where
  alg : Alg
  key : String
  payload : Claims
  deriving Repr, DecidableEq

/-- A serialised token: the algorithm its header declares, its claims,
and its signature. -/
structure Token where
  alg : Alg
  claims : Claims
  sig : Mac
  deriving Repr, DecidableEq

/-- Signature verification against a secret: the signature must have
been produced with the declared header algorithm over exactly the
claims of this token using exactly this secret. -/
def sigValid (tok : Token) (secret : String) : Bool :=
  tok.sig.alg == tok.alg && tok.sig.key == secret && tok.sig.payload == tok.claims

/-- JWTManager: immutable configuration (client.go lines 566-583). -/
structure JWTManager where
  secret : String
  accessExpiry : Time
  refreshExpiry : Time
  issuer : String
  audience : String
  deriving Repr, DecidableEq

/-- NewJWTManager (client.go lines 575-583). -/
def newJWTManager (secret : String) (accessExpiry refreshExpiry : Time)
    (issuer audience : String) : JWTManager :=
  { secret := secret, accessExpiry := accessExpiry,
    refreshExpiry := refreshExpiry, issuer := issuer, audience := audience }

/-- The auth package error values returned by ValidateToken. -/
inductive AuthError where
  | invalidToken
  | expiredToken
  | invalidClaims
  | missingToken
  | invalidSignature
  deriving Repr, DecidableEq

/-- generateToken (client.go lines 616-640): builds the claims from the
user and the manager configuration and signs them with HS256 under the
shared secret.  The fresh jwt id (uuid.New) and the clock reading are
passed explicitly. -/
def JWTManager.generateToken (m : JWTManager) (user : User)
    (tokenType : String) (expiry : Time) (now : Time) (jti : String) : Token :=
  let claims : Claims :=
    { reg :=
        { jti := jti, sub := user.id, iss := m.issuer, aud := [m.audience],
          iat := some now, nbf := some now, exp := some (now + expiry) }
      userID := user.id
      tenantID := user.tenantID
      role := user.role
      scopes := user.scopes
      tokenType := tokenType
      email := user.email
      name := user.name }
  { alg := .hs256, claims := claims
    sig := { alg := .hs256, key := m.secret, payload := claims } }

/-- GenerateAccessToken (client.go lines 586-588). -/
def JWTManager.generateAccessToken (m : JWTManager) (user : User)
    (now : Time) (jti : String) : Token :=
  m.generateToken user "access" m.accessExpiry now jti

/-- The jwt v5 expiry check: with an ExpiresAt present the token is
valid strictly before it (now.Before(exp)); an absent ExpiresAt is not
an error under the default options. -/
def expiredAt (reg : RegisteredClaims) (now : Time) : Bool :=
  match reg.exp with
  | some e => decide (e ≤ now)
  | none => false

/-- The jwt v5 NotBefore check: with a NotBefore present the token is
invalid strictly before it; an absent NotBefore is not an error. -/
def notYetValidAt (reg : RegisteredClaims) (now : Time) : Bool :=
  match reg.nbf with
  | some b => decide (now < b)
  | none => false

/-- ValidateToken (client.go lines 643-665) over the jwt v5 parse just
described.  The keyfunc rejects any non-HMAC signing method (that error
surfaces as ErrInvalidToken, since it is not jwt.ErrTokenExpired); a bad
signature likewise surfaces as ErrInvalidToken; jwt.ErrTokenExpired maps
to ErrExpiredToken; a NotBefore violation surfaces as ErrInvalidToken.
The default validator checks no issuer, audience or issued-at, so after
those checks the claims are returned as-is. -/
def JWTManager.validateToken (m : JWTManager) (tok : Token) (now : Time) :
    Except AuthError Claims :=
  if tok.alg.isHMAC = false then .error .invalidToken
  else if sigValid tok m.secret = false then .error .invalidToken
  else if expiredAt tok.claims.reg now then .error .expiredToken
  else if notYetValidAt tok.claims.reg now then .error .invalidToken
  else .ok tok.claims

/-! ## Concrete instances used by the claim theorems -/

/-- A concretely configured manager. -/
def demoManager : JWTManager :=
  newJWTManager "topsecret" 3600 7200 "arca-gateway" "arca-api"

/-- A concrete user. -/
def demoUser : User :=
  { id := "u1", tenantID := "t1", email := "u1@example.com", name := "U One",
    role := "viewer", scopes := ["hunting:read"] }

/-- Claims carrying an issuer and audience different from the manager
configuration, but valid time claims. -/
def foreignClaims : Claims :=
  { reg :=
      { jti := "j1", sub := "u1", iss := "evil-issuer", aud := ["evil-audience"],
        iat := some 0, nbf := some 0, exp := some 1000 }
    userID := "u1", tenantID := "t1", role := "viewer",
    scopes := ["hunting:read"], tokenType := "access",
    email := "", name := "" }

/-- A token over foreignClaims correctly signed with HS256 under the
manager secret. -/
def foreignToken : Token :=
  { alg := .hs256, claims := foreignClaims
    sig := { alg := .hs256, key := "topsecret", payload := foreignClaims } }

/-- Claims with valid time fields and the configured issuer/audience. -/
def hs384Claims : Claims :=
  { reg :=
      { jti := "j2", sub := "u1", iss := "arca-gateway", aud := ["arca-api"],
        iat := some 0, nbf := some 0, exp := some 1000 }
    userID := "u1", tenantID := "t1", role := "viewer",
    scopes := ["hunting:read"], tokenType := "access",
    email := "", name := "" }

/-- A token declaring HS384 and signed with HS384 under the manager
secret: not the algorithm used at issuance, but in the HMAC family. -/
def hs384Token : Token :=
  { alg := .hs384, claims := hs384Claims
    sig := { alg := .hs384, key := "topsecret", payload := hs384Claims } }

/-- A token declaring RS256 (outside the HMAC family). -/
def rs256Token : Token :=
  { alg := .rs256, claims := hs384Claims
    sig := { alg := .rs256, key := "topsecret", payload := hs384Claims } }

/-- A successful response envelope. -/
def demoResp : MCPResponse :=
  { success := true, requestID := "r1", jobID := "", data := [],
    error := none, timestamp := "t0" }

/-- A logically failed envelope: success false with an embedded error. -/
def failResp : MCPResponse :=
  { success := false, requestID := "r1", jobID := "", data := [],
    error := some { code := "ERR_BIZ", message := "rejected", details := "" },
    timestamp := "t0" }

/-- An envelope with success false but no embedded error object. -/
def softFailResp : MCPResponse :=
  { success := false, requestID := "r1", jobID := "", data := [],
    error := none, timestamp := "t0" }

/-- Replies for the terminal-error scenario: a transport failure on
attempt 0, then 401 on every later attempt. -/
def repliesTerm : Nat → Reply :=
  fun i => if i = 0 then .transportFailure else .http 401 .unparsable

/-- Replies for the eventual-success scenario with budget 2: transport
failures on attempts 0 and 1, success on attempt 2. -/
def repliesSucc : Nat → Reply :=
  fun i => if i < 2 then .transportFailure else .http 200 (.parsed demoResp)

/-- The rate-limit key of the demo tenant. -/
def demoTenantKey : String := keyFor (some "t1") ""

/-- The five Allow calls of the limit-3 scenario: three within one
second, a fourth in the same second, and a fifth after the window. -/
def c7Calls : List (String × Int × Time) :=
  [("k", 0, 0), ("k", 0, 0), ("k", 0, 1), ("k", 0, 1), ("k", 0, 61)]

/-- Results of the limit-3 scenario against the default limit. -/
def c7Results : List AllowResult :=
  (allowSeq (RateLimiter.mk (fun _ => none) 3 60) c7Calls).1

/-- Results of the same scenario against default limit 1000 but custom
limit 3 on every call (the other way an effective limit of 3 arises). -/
def c7CustomResults : List AllowResult :=
  (allowSeq (RateLimiter.mk (fun _ => none) 1000 60)
    (c7Calls.map (fun c => (c.1, 3, c.2.2)))).1

/-- The limiter state reached after 100 admitted requests of the demo
tenant within one window, under the tenant middleware configuration. -/
def c3State : RateLimiter :=
  (allowSeq (newRateLimiter 1000 60)
    (List.replicate 100 (demoTenantKey, customLimitFor (tenantRateLimitConfig []) demoTenantKey, 0))).2

/-- A full window of two timestamps at time 0 under limit 2. -/
def c10State : RateLimiter :=
  { requests := fun k => if k == "k" then some [0, 0] else none
    limit := 2, windowSize := 60 }

/-! ## Helper lemmas: the table and the Allow pass -/

theorem setKey_same (requests : WindowTable) (key : String) (w : List Time) :
    setKey requests key w key = some w := by
  simp [setKey]

theorem mem_setKey {requests : WindowTable} {key : String} {w : List Time}
    {k : String} {ts : List Time} (h : setKey requests key w k = some ts) :
    ts = w ∨ requests k = some ts := by
  unfold setKey at h
  split at h
  · cases h; exact Or.inl rfl
  · exact Or.inr h

theorem mem_filterWindow {cutoff : Time} {ts : List Time} {t : Time} :
    t ∈ filterWindow cutoff ts ↔ t ∈ ts ∧ cutoff < t := by
  simp [filterWindow, List.mem_filter]

theorem windowOf_bounded {rl : RateLimiter} {B : Time}
    (hb : timesBounded rl.requests B) (key : String) :
    ∀ t ∈ windowOf rl key, t ≤ B := by
  intro t ht
  unfold windowOf at ht
  cases hr : rl.requests key with
  | none => rw [hr] at ht; simp at ht
  | some w => rw [hr] at ht; exact hb key w hr t (by simpa using ht)

theorem allow_requests_eq (rl : RateLimiter) (key : String) (cl : Int) (now : Time) :
    (rl.allow key cl now).2.requests
        = setKey rl.requests key (filterWindow (now - rl.windowSize) (windowOf rl key))
    ∨ (rl.allow key cl now).2.requests
        = setKey rl.requests key
            (filterWindow (now - rl.windowSize) (windowOf rl key) ++ [now]) := by
  simp only [RateLimiter.allow]
  split_ifs <;> first | exact Or.inl rfl | exact Or.inr rfl

theorem allow_fields (rl : RateLimiter) (key : String) (cl : Int) (now : Time) :
    (rl.allow key cl now).2.limit = rl.limit
    ∧ (rl.allow key cl now).2.windowSize = rl.windowSize := by
  simp only [RateLimiter.allow]
  split_ifs <;> exact ⟨rfl, rfl⟩

theorem allow_reject_eq (rl : RateLimiter) (key : String) (cl : Int) (now : Time)
    (hrej : (rl.allow key cl now).1.allowed = false) :
    (rl.allow key cl now).2.requests
        = setKey rl.requests key (filterWindow (now - rl.windowSize) (windowOf rl key))
    ∧ (0 < (filterWindow (now - rl.windowSize) (windowOf rl key)).length →
        (rl.allow key cl now).1.resetIn
          = (filterWindow (now - rl.windowSize) (windowOf rl key)).headD 0
              + rl.windowSize - now) := by
  simp only [RateLimiter.allow] at hrej ⊢
  split_ifs at hrej ⊢ <;>
    first
      | exact ⟨rfl, fun _ => rfl⟩
      | exact ⟨rfl, fun hl => absurd hl (by assumption)⟩

theorem windowOf_allow_eq (rl : RateLimiter) (key : String) (cl : Int) (now : Time) :
    windowOf (rl.allow key cl now).2 key
        = filterWindow (now - rl.windowSize) (windowOf rl key)
    ∨ windowOf (rl.allow key cl now).2 key
        = filterWindow (now - rl.windowSize) (windowOf rl key) ++ [now] := by
  rcases allow_requests_eq rl key cl now with h | h
  · left; simp [windowOf, h, setKey_same]
  · right; simp [windowOf, h, setKey_same]

theorem headD_mem {l : List Time} (h : l ≠ []) : l.headD 0 ∈ l := by
  cases l with
  | nil => exact absurd rfl h
  | cons a l => simp

theorem timesBounded_allow {rl : RateLimiter} {B : Time} (key : String)
    (cl : Int) {now : Time} (hb : timesBounded rl.requests B) (hnow : now ≤ B) :
    timesBounded (rl.allow key cl now).2.requests B := by
  intro k ts hts t ht
  rcases allow_requests_eq rl key cl now with h | h <;> rw [h] at hts <;>
    rcases mem_setKey hts with rfl | hk
  · exact windowOf_bounded hb key t (mem_filterWindow.mp ht).1
  · exact hb k ts hk t ht
  · rcases List.mem_append.mp ht with h2 | h2
    · exact windowOf_bounded hb key t (mem_filterWindow.mp h2).1
    · have h3 : t = now := by simpa using h2
      exact h3 ▸ hnow
  · exact hb k ts hk t ht

theorem timesBounded_cleanup {requests : WindowTable} {B : Time}
    (w now : Time) (hb : timesBounded requests B) :
    timesBounded (cleanupPass w now requests) B := by
  intro k ts hts t ht
  unfold cleanupPass at hts
  cases hr : requests k with
  | none => rw [hr] at hts; cases hts
  | some ts0 =>
    rw [hr] at hts
    simp only at hts
    split at hts
    · cases hts
    · have hts2 : filterWindow (now - w) ts0 = ts := by
        simpa using hts
      rw [← hts2] at ht
      exact hb k ts0 hr t (mem_filterWindow.mp ht).1

theorem timesBounded_step {rl : RateLimiter} {B : Time} (op : RLOp)
    (hb : timesBounded rl.requests B) (ht : op.time ≤ B) :
    timesBounded (rl.step op).requests B := by
  cases op with
  | allowOp key cl now => exact timesBounded_allow key cl hb ht
  | cleanupOp now => exact timesBounded_cleanup rl.windowSize now hb

theorem timesBounded_run {B : Time} (ops : List RLOp) :
    ∀ rl : RateLimiter, timesBounded rl.requests B →
      (∀ o ∈ ops, o.time ≤ B) → timesBounded (rl.run ops).requests B := by
  induction ops with
  | nil => intro rl hb _; exact hb
  | cons o ops ih =>
    intro rl hb hops
    have h1 : (rl.run (o :: ops)) = ((rl.step o).run ops) := by
      simp [RateLimiter.run]
    rw [h1]
    exact ih (rl.step o)
      (timesBounded_step o hb (hops o (List.mem_cons_self o ops)))
      (fun o2 ho2 => hops o2 (List.mem_cons_of_mem o ho2))

theorem step_windowSize (rl : RateLimiter) (op : RLOp) :
    (rl.step op).windowSize = rl.windowSize := by
  cases op with
  | allowOp key cl now => exact (allow_fields rl key cl now).2
  | cleanupOp now => rfl

theorem run_windowSize (ops : List RLOp) :
    ∀ rl : RateLimiter, (rl.run ops).windowSize = rl.windowSize := by
  induction ops with
  | nil => intro rl; rfl
  | cons o ops ih =>
    intro rl
    have h1 : (rl.run (o :: ops)) = ((rl.step o).run ops) := by
      simp [RateLimiter.run]
    rw [h1, ih (rl.step o), step_windowSize]

theorem allow_pass_bound (rl : RateLimiter) (key : String) (cl : Int)
    (now : Time) (hw : 0 ≤ rl.windowSize) (hb : timesBounded rl.requests now) :
    ∀ t ∈ windowOf (rl.allow key cl now).2 key,
      now - rl.windowSize ≤ t ∧ t ≤ now := by
  intro t ht
  rcases windowOf_allow_eq rl key cl now with h | h <;> rw [h] at ht
  · rcases mem_filterWindow.mp ht with ⟨hmem, hcut⟩
    exact ⟨le_of_lt hcut, windowOf_bounded hb key t hmem⟩
  · rcases List.mem_append.mp ht with h2 | h2
    · rcases mem_filterWindow.mp h2 with ⟨hmem, hcut⟩
      exact ⟨le_of_lt hcut, windowOf_bounded hb key t hmem⟩
    · have h3 : t = now := by simpa using h2
      subst h3
      exact ⟨by linarith, le_refl t⟩

theorem cleanup_pass_bound (w now : Time) (requests : WindowTable)
    (hb : timesBounded requests now) :
    ∀ k ts, cleanupPass w now requests k = some ts →
      ∀ t ∈ ts, now - w ≤ t ∧ t ≤ now := by
  intro k ts hts t ht
  unfold cleanupPass at hts
  cases hr : requests k with
  | none => rw [hr] at hts; cases hts
  | some ts0 =>
    rw [hr] at hts
    simp only at hts
    split at hts
    · cases hts
    · have hts2 : filterWindow (now - w) ts0 = ts := by simpa using hts
      rw [← hts2] at ht
      rcases mem_filterWindow.mp ht with ⟨hmem, hcut⟩
      exact ⟨le_of_lt hcut, hb k ts0 hr t hmem⟩

/-! ## Rate-limiter claims -/

/-- Claim C7: for a fresh key with effective limit 3 and window 60s, four
Allow calls within 1 second yield admitted, admitted, admitted, rejected
in that order, the rejection returning resetIn = (oldest retained
timestamp + windowSize) - now (here 0 + 60 - 1), and an Allow call for
the same key after more than 60s have elapsed is admitted again.  Both
ways of reaching an effective limit of 3 (default limit 3, and custom
limit 3 over default 1000) behave identically. -/
theorem spec_C7 :
    c7Results.map AllowResult.allowed = [true, true, true, false, true]
    ∧ (c7Results.getD 3 ⟨true, 0, 0⟩).resetIn = 0 + 60 - 1
    ∧ c7CustomResults.map AllowResult.allowed = [true, true, true, false, true] := by
  decide

/-- Claim C9: running any sequence of Allow calls and cleanup passes from
the empty table under a monotone clock, a final filtering pass observing
time now leaves, in every window it filters, only timestamps within
[now - windowSize, now]: an Allow pass guarantees this for the key it
touches, a cleanup pass for every retained key. -/
theorem spec_C9 (limit : Int) (w : Time) (ops : List RLOp) (key : String)
    (cl : Int) (nowA nowC : Time) (hw : 0 ≤ w)
    (hA : ∀ o ∈ ops, o.time ≤ nowA) (hC : ∀ o ∈ ops, o.time ≤ nowC) :
    (∀ t ∈ windowOf
        (((RateLimiter.mk (fun _ => none) limit w).run ops).allow key cl nowA).2 key,
      nowA - w ≤ t ∧ t ≤ nowA)
    ∧ (∀ k ts,
        cleanupPass w nowC ((RateLimiter.mk (fun _ => none) limit w).run ops).requests k
          = some ts →
        ∀ t ∈ ts, nowC - w ≤ t ∧ t ≤ nowC) := by
  have hrun := run_windowSize ops (RateLimiter.mk (fun _ => none) limit w)
  constructor
  · have hbase : timesBounded (RateLimiter.mk (fun _ => none) limit w).requests nowA := by
      intro k ts h
      simp at h
    have hb := timesBounded_run ops (RateLimiter.mk (fun _ => none) limit w) hbase hA
    have hres := allow_pass_bound ((RateLimiter.mk (fun _ => none) limit w).run ops)
      key cl nowA (by rw [hrun]; exact hw) hb
    rw [hrun] at hres
    exact hres
  · have hbase : timesBounded (RateLimiter.mk (fun _ => none) limit w).requests nowC := by
      intro k ts h
      simp at h
    have hb := timesBounded_run ops (RateLimiter.mk (fun _ => none) limit w) hbase hC
    exact cleanup_pass_bound w nowC _ hb

/-- Witness for C9 at a concrete monotone trace. -/
theorem spec_C9_witness :
    (0 : Int) ≤ 60
    ∧ (∀ o ∈ [RLOp.allowOp "k" 0 0], o.time ≤ (1 : Int))
    ∧ ((∀ t ∈ windowOf
          (((RateLimiter.mk (fun _ => none) 3 60).run [RLOp.allowOp "k" 0 0]).allow
            "k" 0 1).2 "k",
        (1 : Int) - 60 ≤ t ∧ t ≤ 1)
      ∧ (∀ k ts,
          cleanupPass 60 1
            ((RateLimiter.mk (fun _ => none) 3 60).run [RLOp.allowOp "k" 0 0]).requests k
            = some ts →
          ∀ t ∈ ts, (1 : Int) - 60 ≤ t ∧ t ≤ 1)) :=
  ⟨by decide, by decide,
    spec_C9 3 60 [RLOp.allowOp "k" 0 0] "k" 0 1 1 (by decide) (by decide) (by decide)⟩

/-- Claim C10: a rejected Allow call appends no timestamp: the window
of the key afterwards is exactly the filtered (expired entries dropped)
version of the window before, so every retained timestamp existed
before, the window length does not grow (the remaining quota
limit - length does not decrease), and the reset hint is computed from
the oldest retained timestamp, which was written by an earlier admitted
call. -/
theorem spec_C10 (rl : RateLimiter) (key : String) (cl : Int) (now : Time)
    (hrej : (rl.allow key cl now).1.allowed = false) :
    windowOf (rl.allow key cl now).2 key
        = filterWindow (now - rl.windowSize) (windowOf rl key)
    ∧ (∀ t ∈ windowOf (rl.allow key cl now).2 key, t ∈ windowOf rl key)
    ∧ (windowOf (rl.allow key cl now).2 key).length ≤ (windowOf rl key).length
    ∧ rl.limit - ((windowOf rl key).length : Int)
        ≤ rl.limit - ((windowOf (rl.allow key cl now).2 key).length : Int)
    ∧ (windowOf (rl.allow key cl now).2 key ≠ [] →
        (rl.allow key cl now).1.resetIn
            = (windowOf (rl.allow key cl now).2 key).headD 0 + rl.windowSize - now
        ∧ (windowOf (rl.allow key cl now).2 key).headD 0 ∈ windowOf rl key) := by
  obtain ⟨hreq, hreset⟩ := allow_reject_eq rl key cl now hrej
  have hwin : windowOf (rl.allow key cl now).2 key
      = filterWindow (now - rl.windowSize) (windowOf rl key) := by
    rw [windowOf, hreq, setKey_same]
    rfl
  have hlen : (windowOf (rl.allow key cl now).2 key).length
      ≤ (windowOf rl key).length := by
    rw [hwin]
    simpa [filterWindow] using List.length_filter_le _ (windowOf rl key)
  refine ⟨hwin, ?_, hlen, by omega, ?_⟩
  · rw [hwin]
    intro t ht
    exact (mem_filterWindow.mp ht).1
  · intro hne
    rw [hwin] at hne
    have hpos : 0 < (filterWindow (now - rl.windowSize) (windowOf rl key)).length :=
      List.length_pos.mpr hne
    refine ⟨by rw [hwin]; exact hreset hpos, ?_⟩
    rw [hwin]
    exact (mem_filterWindow.mp (headD_mem hne)).1

/-- Witness for C10 at a full window of two entries under limit 2. -/
theorem spec_C10_witness :
    (c10State.allow "k" 0 1).1.allowed = false
    ∧ (windowOf (c10State.allow "k" 0 1).2 "k"
          = filterWindow (1 - c10State.windowSize) (windowOf c10State "k")
      ∧ (∀ t ∈ windowOf (c10State.allow "k" 0 1).2 "k", t ∈ windowOf c10State "k")
      ∧ (windowOf (c10State.allow "k" 0 1).2 "k").length
          ≤ (windowOf c10State "k").length
      ∧ c10State.limit - ((windowOf c10State "k").length : Int)
          ≤ c10State.limit - ((windowOf (c10State.allow "k" 0 1).2 "k").length : Int)
      ∧ (windowOf (c10State.allow "k" 0 1).2 "k" ≠ [] →
          (c10State.allow "k" 0 1).1.resetIn
              = (windowOf (c10State.allow "k" 0 1).2 "k").headD 0
                  + c10State.windowSize - 1
          ∧ (windowOf (c10State.allow "k" 0 1).2 "k").headD 0
              ∈ windowOf c10State "k")) :=
  ⟨by decide, spec_C10 c10State "k" 0 1 (by decide)⟩

set_option maxRecDepth 100000 in
/-- Claim C3 (code bug): TenantRateLimitMiddleware builds the per-plan
limits table (free 100, starter 500, pro 2000, enterprise 10000) but the
config it passes on leaves CustomLimits unset, so the custom limit
handed to Allow is 0 for every key and every request is judged against
the default limit 1000.  Concretely, after 100 requests of a tenant
within one window the 101st is admitted with remaining 899, whereas
under the free plan limit of 100 the same call would be rejected. -/
theorem spec_C3 :
    (tenantPlanLimits []).lookup "free" = some 100
    ∧ (∀ baseLimits : List (String × Int), ∀ key : String,
        customLimitFor (tenantRateLimitConfig baseLimits) key = 0)
    ∧ (rateLimitMiddlewareStep (tenantRateLimitConfig []) c3State (some "t1") "" 0).1
        = ⟨true, 899, 0⟩
    ∧ (c3State.allow demoTenantKey 100 0).1.allowed = false := by
  refine ⟨by decide, fun _ _ => rfl, by decide, by decide⟩

/-! ## Helper lemmas: the execute retry loop -/

theorem numAttempts_append (a b : List Ev) :
    numAttempts (a ++ b) = numAttempts a + numAttempts b := by
  simp [numAttempts, List.filter_append]

theorem numSleeps_append (a b : List Ev) :
    numSleeps (a ++ b) = numSleeps a + numSleeps b := by
  simp [numSleeps, List.filter_append]

theorem numAttempts_pre (c : Prop) [Decidable c] (d : Int) :
    numAttempts (if c then [Ev.sleep d] else []) = 0 := by
  split <;> simp [numAttempts, isAttemptEv]

theorem numSleeps_pre (c : Prop) [Decidable c] (d : Int) :
    numSleeps (if c then [Ev.sleep d] else []) = if c then 1 else 0 := by
  split <;> simp [numSleeps, isSleepEv]

theorem numAttempts_one (n : Nat) : numAttempts [Ev.attempt n] = 1 := by
  simp [numAttempts, isAttemptEv]

theorem numSleeps_attempt (n : Nat) : numSleeps [Ev.attempt n] = 0 := by
  simp [numSleeps, isSleepEv]

theorem numAttempts_cons_attempt (n : Nat) (l : List Ev) :
    numAttempts (Ev.attempt n :: l) = numAttempts l + 1 := by
  simp [numAttempts, isAttemptEv, List.filter_cons]

theorem numAttempts_cons_sleep (d : Int) (l : List Ev) :
    numAttempts (Ev.sleep d :: l) = numAttempts l := by
  simp [numAttempts, isAttemptEv, List.filter_cons]

theorem numSleeps_cons_attempt (n : Nat) (l : List Ev) :
    numSleeps (Ev.attempt n :: l) = numSleeps l := by
  simp [numSleeps, isSleepEv, List.filter_cons]

theorem numSleeps_cons_sleep (d : Int) (l : List Ev) :
    numSleeps (Ev.sleep d :: l) = numSleeps l + 1 := by
  simp [numSleeps, isSleepEv, List.filter_cons]

theorem executeLoop_terminal (m : Nat) (d : Int)
    (step : Nat → Except ReqError MCPResponse) (et : ReqError)
    (hterm : isTerminal et = true) :
    ∀ (j fuel attempt : Nat) (last : Option ReqError),
      (∀ i, i < j → isRetryableErr (step (attempt + i)) = true) →
      step (attempt + j) = .error et →
      j < fuel →
      (executeLoop m d step fuel attempt last).1 = .error (.immediate et)
      ∧ numAttempts (executeLoop m d step fuel attempt last).2 = j + 1 := by
  intro j
  induction j with
  | zero =>
    intro fuel attempt last hpre hstep hlt
    obtain ⟨f, rfl⟩ : ∃ f, fuel = f + 1 := ⟨fuel - 1, by omega⟩
    rw [Nat.add_zero] at hstep
    simp only [executeLoop]
    rw [hstep]
    simp [hterm, numAttempts_append, numAttempts_pre, numAttempts_one]
  | succ j ih =>
    intro fuel attempt last hpre hstep hlt
    obtain ⟨f, rfl⟩ : ∃ f, fuel = f + 1 := ⟨fuel - 1, by omega⟩
    have h0 := hpre 0 (Nat.succ_pos j)
    rw [Nat.add_zero] at h0
    cases hs : step attempt with
    | ok r => rw [hs] at h0; simp [isRetryableErr] at h0
    | error e0 =>
      rw [hs] at h0
      have hnt : isTerminal e0 = false := by
        simpa [isRetryableErr] using h0
      have ihres := ih f (attempt + 1) (some e0)
        (fun i hi => by
          have h2 := hpre (i + 1) (by omega)
          rwa [show attempt + (i + 1) = attempt + 1 + i by omega] at h2)
        (by rwa [show attempt + 1 + j = attempt + (j + 1) by omega])
        (by omega)
      simp only [executeLoop]
      rw [hs]
      simp [hnt, numAttempts_append, numAttempts_pre, numAttempts_one,
        numAttempts_cons_attempt, numAttempts_cons_sleep, ihres.1, ihres.2]

theorem executeLoop_success (m : Nat) (d : Int)
    (step : Nat → Except ReqError MCPResponse) (resp : MCPResponse) :
    ∀ (j fuel attempt : Nat) (last : Option ReqError),
      (∀ i, i < j → isRetryableErr (step (attempt + i)) = true) →
      step (attempt + j) = .ok resp →
      j < fuel →
      (executeLoop m d step fuel attempt last).1 = .ok resp
      ∧ numAttempts (executeLoop m d step fuel attempt last).2 = j + 1 := by
  intro j
  induction j with
  | zero =>
    intro fuel attempt last hpre hstep hlt
    obtain ⟨f, rfl⟩ : ∃ f, fuel = f + 1 := ⟨fuel - 1, by omega⟩
    rw [Nat.add_zero] at hstep
    simp only [executeLoop]
    rw [hstep]
    simp [numAttempts_append, numAttempts_pre, numAttempts_one]
  | succ j ih =>
    intro fuel attempt last hpre hstep hlt
    obtain ⟨f, rfl⟩ : ∃ f, fuel = f + 1 := ⟨fuel - 1, by omega⟩
    have h0 := hpre 0 (Nat.succ_pos j)
    rw [Nat.add_zero] at h0
    cases hs : step attempt with
    | ok r => rw [hs] at h0; simp [isRetryableErr] at h0
    | error e0 =>
      rw [hs] at h0
      have hnt : isTerminal e0 = false := by
        simpa [isRetryableErr] using h0
      have ihres := ih f (attempt + 1) (some e0)
        (fun i hi => by
          have h2 := hpre (i + 1) (by omega)
          rwa [show attempt + (i + 1) = attempt + 1 + i by omega] at h2)
        (by rwa [show attempt + 1 + j = attempt + (j + 1) by omega])
        (by omega)
      simp only [executeLoop]
      rw [hs]
      simp [hnt, numAttempts_append, numAttempts_pre, numAttempts_one,
        numAttempts_cons_attempt, numAttempts_cons_sleep, ihres.1, ihres.2]

theorem executeLoop_allRetryable (m : Nat) (d : Int)
    (step : Nat → Except ReqError MCPResponse) (e0 : ReqError)
    (hnt : isTerminal e0 = false) (hstep : ∀ i, step i = .error e0) :
    ∀ (fuel attempt : Nat) (last : Option ReqError), 0 < fuel →
      (executeLoop m d step fuel attempt last).1
          = .error (.exhausted (m + 1) (some e0))
      ∧ numAttempts (executeLoop m d step fuel attempt last).2 = fuel
      ∧ numSleeps (executeLoop m d step fuel attempt last).2
          = (if attempt = 0 then fuel - 1 else fuel) := by
  intro fuel
  induction fuel with
  | zero => intro attempt last h; omega
  | succ f ih =>
    intro attempt last _
    by_cases hf : f = 0
    · subst hf
      simp only [executeLoop]
      rw [hstep attempt]
      simp [hnt, executeLoop, numAttempts_append, numAttempts_pre, numAttempts_one,
        numAttempts_cons_attempt, numAttempts_cons_sleep, numSleeps_append,
        numSleeps_pre, numSleeps_attempt, numSleeps_cons_attempt, numSleeps_cons_sleep]
      rcases Nat.eq_zero_or_pos attempt with ha | ha
      · subst ha; simp [numAttempts, numSleeps]
      · have ha2 : ¬ attempt = 0 := by omega
        simp [ha, ha2, numAttempts, numSleeps]
    · have ihres := ih (attempt + 1) (some e0) (by omega)
      have hne : ¬ (attempt + 1 = 0) := by omega
      rw [if_neg hne] at ihres
      simp only [executeLoop]
      rw [hstep attempt]
      simp [hnt, numAttempts_append, numAttempts_pre, numAttempts_one,
        numAttempts_cons_attempt, numAttempts_cons_sleep, numSleeps_append,
        numSleeps_pre, numSleeps_attempt, numSleeps_cons_attempt,
        numSleeps_cons_sleep, ihres.1, ihres.2.1, ihres.2.2]
      rcases Nat.eq_zero_or_pos attempt with ha | ha
      · subst ha; simp [numAttempts, numSleeps]
      · have ha2 : ¬ attempt = 0 := by omega
        simp [ha, ha2, numAttempts, numSleeps]
        omega

/-! ## Bridge client claims -/

/-- Claim C8: an attempt whose outcome is Unauthorized or Forbidden
terminates execute immediately with that error after exactly that one
attempt and no further attempts; and with any budget maxRetries,
transport failures on every attempt before the last followed by a
successful final attempt make execute return that successful response
after all maxRetries + 1 attempts. -/
theorem spec_C8 (maxRetries : Nat) (retryDelay : Int)
    (replies1 replies2 : Nat → Reply) (k : Nat) (et : ReqError)
    (resp : MCPResponse) (hk : k ≤ maxRetries)
    (hpre : ∀ i, i < k → isRetryableErr (doRequest (replies1 i)) = true)
    (hterm : doRequest (replies1 k) = .error et)
    (hkind : et = .unauthorized ∨ et = .forbidden)
    (htrans : ∀ i, i < maxRetries → replies2 i = .transportFailure)
    (hok : doRequest (replies2 maxRetries) = .ok resp) :
    ((execute maxRetries retryDelay false replies1).1 = .error (.immediate et)
      ∧ numAttempts (execute maxRetries retryDelay false replies1).2 = k + 1)
    ∧ ((execute maxRetries retryDelay false replies2).1 = .ok resp
      ∧ numAttempts (execute maxRetries retryDelay false replies2).2
          = maxRetries + 1) := by
  have hT : isTerminal et = true := by rcases hkind with rfl | rfl <;> rfl
  constructor
  · have h := executeLoop_terminal maxRetries retryDelay (stepOf false replies1)
      et hT k (maxRetries + 1) 0 none
      (fun i hi => by simpa [stepOf] using hpre i hi)
      (by simpa [stepOf] using hterm)
      (by omega)
    exact ⟨by simpa [execute] using h.1, by simpa [execute] using h.2⟩
  · have h := executeLoop_success maxRetries retryDelay (stepOf false replies2)
      resp maxRetries (maxRetries + 1) 0 none
      (fun i hi => by simp [stepOf, htrans i hi, doRequest, isRetryableErr, isTerminal])
      (by simpa [stepOf] using hok)
      (by omega)
    exact ⟨by simpa [execute] using h.1, by simpa [execute] using h.2⟩

/-- Witness for C8: a transport failure then a 401 stops after attempt 2;
two transport failures then a 200 succeed on attempt 3. -/
theorem spec_C8_witness :
    ((1 : Nat) ≤ 2
      ∧ (∀ i, i < 1 → isRetryableErr (doRequest (repliesTerm i)) = true)
      ∧ doRequest (repliesTerm 1) = .error .unauthorized
      ∧ (∀ i, i < 2 → repliesSucc i = .transportFailure)
      ∧ doRequest (repliesSucc 2) = .ok demoResp)
    ∧ (((execute 2 1 false repliesTerm).1
          = .error (.immediate ReqError.unauthorized)
        ∧ numAttempts (execute 2 1 false repliesTerm).2 = 2)
      ∧ ((execute 2 1 false repliesSucc).1 = .ok demoResp
        ∧ numAttempts (execute 2 1 false repliesSucc).2 = 3)) :=
  ⟨⟨by decide, by decide, by rfl, by decide, by rfl⟩,
    spec_C8 2 1 repliesTerm repliesSucc 1 ReqError.unauthorized demoResp
      (by decide) (by decide) (by rfl) (Or.inl rfl) (by decide) (by rfl)⟩

/-- Claim C2 counterexample: with budget maxRetries = 2, every reply a
2xx envelope with success = false and an embedded error, execute makes
3 delivery attempts, not exactly one, and surfaces the logical failure
only as the budget-exhausted error. -/
theorem spec_C2_counterexample :
    failResp.success = false
    ∧ (execute 2 1 false (fun _ => .http 200 (.parsed failResp))).1
        = .error (.exhausted 3 (some (.mcpError "ERR_BIZ" "rejected")))
    ∧ numAttempts (execute 2 1 false (fun _ => .http 200 (.parsed failResp))).2 = 3
    ∧ numAttempts (execute 2 1 false (fun _ => .http 200 (.parsed failResp))).2
        ≠ 1 :=
  ⟨rfl, rfl, rfl, by decide⟩

/-- Claim C2 (amended): a 2xx reply whose envelope has success = false
and a non-nil embedded error is converted by doRequest into an error
that execute treats as retryable, so the logical failure is reported
only after the full budget of maxRetries + 1 attempts is exhausted; only
a 2xx envelope with success = false and no embedded error object is
returned to the caller after exactly one attempt. -/
theorem spec_C2_amended (maxRetries : Nat) (retryDelay : Int)
    (resp resp2 : MCPResponse) (e : MCPError)
    (h1 : resp.success = false) (h2 : resp.error = some e)
    (h3 : resp2.success = false) (h4 : resp2.error = none) :
    ((execute maxRetries retryDelay false (fun _ => .http 200 (.parsed resp))).1
        = .error (.exhausted (maxRetries + 1) (some (.mcpError e.code e.message)))
      ∧ numAttempts (execute maxRetries retryDelay false
          (fun _ => .http 200 (.parsed resp))).2 = maxRetries + 1)
    ∧ ((execute maxRetries retryDelay false
          (fun _ => .http 200 (.parsed resp2))).1 = .ok resp2
      ∧ numAttempts (execute maxRetries retryDelay false
          (fun _ => .http 200 (.parsed resp2))).2 = 1) := by
  constructor
  · have hstep : ∀ i, stepOf false (fun _ => Reply.http 200 (.parsed resp)) i
        = .error (.mcpError e.code e.message) := by
      intro i
      simp [stepOf, doRequest, h1, h2]
    have h := executeLoop_allRetryable maxRetries retryDelay
      (stepOf false (fun _ => Reply.http 200 (.parsed resp)))
      (.mcpError e.code e.message) rfl hstep (maxRetries + 1) 0 none (by omega)
    exact ⟨by simpa [execute] using h.1, by simpa [execute] using h.2.1⟩
  · have hstep : stepOf false (fun _ => Reply.http 200 (.parsed resp2)) 0
        = .ok resp2 := by
      simp [stepOf, doRequest, h4]
    have h := executeLoop_success maxRetries retryDelay
      (stepOf false (fun _ => Reply.http 200 (.parsed resp2))) resp2
      0 (maxRetries + 1) 0 none
      (fun i hi => absurd hi (Nat.not_lt_zero i))
      (by simpa using hstep)
      (by omega)
    exact ⟨by simpa [execute] using h.1, by simpa [execute] using h.2⟩

/-- Witness for C2 (amended) at budget 2 with the two concrete
envelopes. -/
theorem spec_C2_witness :
    (failResp.success = false
      ∧ failResp.error = some ⟨"ERR_BIZ", "rejected", ""⟩
      ∧ softFailResp.success = false
      ∧ softFailResp.error = none)
    ∧ (((execute 2 1 false (fun _ => .http 200 (.parsed failResp))).1
          = .error (.exhausted 3 (some (.mcpError "ERR_BIZ" "rejected")))
        ∧ numAttempts (execute 2 1 false
            (fun _ => .http 200 (.parsed failResp))).2 = 3)
      ∧ ((execute 2 1 false (fun _ => .http 200 (.parsed softFailResp))).1
            = .ok softFailResp
        ∧ numAttempts (execute 2 1 false
            (fun _ => .http 200 (.parsed softFailResp))).2 = 1)) :=
  ⟨⟨rfl, rfl, rfl, rfl⟩,
    spec_C2_amended 2 1 failResp softFailResp ⟨"ERR_BIZ", "rejected", ""⟩
      rfl rfl rfl rfl⟩

/-- Claim C4 counterexample: with the caller deadline already elapsed
(every HTTP attempt fails) and budget 1, the backoff sleep before the
retry still happens and the retry is still initiated: the event trace is
attempt 0, sleep 5, attempt 1. -/
theorem spec_C4_counterexample :
    (execute 1 5 true (fun _ => .http 200 (.parsed demoResp))).2
        = [Ev.attempt 0, Ev.sleep 5, Ev.attempt 1]
    ∧ Ev.sleep 5 ∈ (execute 1 5 true (fun _ => .http 200 (.parsed demoResp))).2
    ∧ numAttempts (execute 1 5 true (fun _ => .http 200 (.parsed demoResp))).2
        = 2 :=
  ⟨rfl, by decide, rfl⟩

/-- Claim C4 (amended): execute never consults the caller deadline
before sleeping or retrying.  With the deadline already elapsed, every
backoff sleep still occurs (maxRetries sleeps) and every delivery
attempt is still initiated (maxRetries + 1 attempts, each failing inside
the context-aware HTTP request as a transport failure), and the call
ends with the budget-exhausted error. -/
theorem spec_C4_amended (maxRetries : Nat) (retryDelay : Int)
    (replies : Nat → Reply) :
    (execute maxRetries retryDelay true replies).1
        = .error (.exhausted (maxRetries + 1) (some .unavailable))
    ∧ numAttempts (execute maxRetries retryDelay true replies).2
        = maxRetries + 1
    ∧ numSleeps (execute maxRetries retryDelay true replies).2 = maxRetries := by
  have hstep : ∀ i, stepOf true replies i = .error .unavailable := fun i => rfl
  have h := executeLoop_allRetryable maxRetries retryDelay (stepOf true replies)
    .unavailable rfl hstep (maxRetries + 1) 0 none (by omega)
  refine ⟨by simpa [execute] using h.1, by simpa [execute] using h.2.1, ?_⟩
  have h3 := h.2.2
  simp at h3
  simpa [execute] using h3

/-! ## Token service claims -/

/-- Claim C1 (code bug evidence): a token whose issuer and audience both
differ from the manager configuration, signed with HS256 under the
correct secret and unexpired, is accepted by ValidateToken and its
claims are returned: the golang-jwt v5 parse invoked without the
WithIssuer / WithAudience options never compares the configured issuer
and audience, so the mismatch does not fail as ErrInvalidClaims. -/
theorem spec_C1 :
    foreignClaims.reg.iss ≠ demoManager.issuer
    ∧ foreignClaims.reg.aud ≠ [demoManager.audience]
    ∧ sigValid foreignToken demoManager.secret = true
    ∧ expiredAt foreignToken.claims.reg 500 = false
    ∧ demoManager.validateToken foreignToken 500 = .ok foreignClaims :=
  ⟨by decide, by decide, rfl, rfl, rfl⟩

/-- Claim C5 counterexample: a token declaring HS384 (an algorithm other
than the HS256 pinned at issuance) and signed with HS384 under the
shared secret is accepted by ValidateToken with its claims returned,
because the keyfunc only checks membership in the HMAC method family. -/
theorem spec_C5_counterexample :
    hs384Token.alg ≠ Alg.hs256
    ∧ demoManager.validateToken hs384Token 500 = .ok hs384Claims :=
  ⟨by decide, rfl⟩

/-- Claim C5 (amended): ValidateToken rejects every token declaring an
algorithm outside the HMAC family (HS256 / HS384 / HS512) with the
invalid-token error and returns no claims; HMAC-family tokens pass the
algorithm check. -/
theorem spec_C5_amended (m : JWTManager) (tok : Token) (now : Time)
    (h : tok.alg.isHMAC = false) :
    m.validateToken tok now = .error .invalidToken := by
  simp [JWTManager.validateToken, h]

/-- Witness for C5 (amended) at a token declaring RS256. -/
theorem spec_C5_witness :
    rs256Token.alg.isHMAC = false
    ∧ demoManager.validateToken rs256Token 500 = .error .invalidToken :=
  ⟨by decide, spec_C5_amended demoManager rs256Token 500 (by decide)⟩

/-- Claim C6: issuing an access token for any user and validating it at
any time in its validity window (not before issuance, strictly before
expiry) succeeds and returns claims whose user id, tenant id, role and
scopes equal those of the original principal. -/
theorem spec_C6 (m : JWTManager) (user : User) (now : Time) (jti : String)
    (vnow : Time) (h1 : now ≤ vnow) (h2 : vnow < now + m.accessExpiry) :
    m.validateToken (m.generateAccessToken user now jti) vnow
        = .ok (m.generateAccessToken user now jti).claims
    ∧ (m.generateAccessToken user now jti).claims.userID = user.id
    ∧ (m.generateAccessToken user now jti).claims.tenantID = user.tenantID
    ∧ (m.generateAccessToken user now jti).claims.role = user.role
    ∧ (m.generateAccessToken user now jti).claims.scopes = user.scopes := by
  refine ⟨?_, rfl, rfl, rfl, rfl⟩
  have halg : (m.generateAccessToken user now jti).alg.isHMAC = true := rfl
  have hsig : sigValid (m.generateAccessToken user now jti) m.secret = true := by
    simp [sigValid, JWTManager.generateAccessToken, JWTManager.generateToken]
  have hexp : expiredAt (m.generateAccessToken user now jti).claims.reg vnow
      = false := by
    simp only [expiredAt, JWTManager.generateAccessToken, JWTManager.generateToken]
    simp only [decide_eq_false_iff_not, not_le]
    exact h2
  have hnbf : notYetValidAt (m.generateAccessToken user now jti).claims.reg vnow
      = false := by
    simp only [notYetValidAt, JWTManager.generateAccessToken,
      JWTManager.generateToken]
    simp only [decide_eq_false_iff_not, not_lt]
    exact h1
  simp [JWTManager.validateToken, halg, hsig, hexp, hnbf]

/-- Witness for C6 with the demo manager and user, issued at 100 and
validated at 200. -/
theorem spec_C6_witness :
    ((100 : Int) ≤ 200 ∧ (200 : Int) < 100 + demoManager.accessExpiry)
    ∧ (demoManager.validateToken
          (demoManager.generateAccessToken demoUser 100 "j1") 200
        = .ok (demoManager.generateAccessToken demoUser 100 "j1").claims
      ∧ (demoManager.generateAccessToken demoUser 100 "j1").claims.userID
          = demoUser.id
      ∧ (demoManager.generateAccessToken demoUser 100 "j1").claims.tenantID
          = demoUser.tenantID
      ∧ (demoManager.generateAccessToken demoUser 100 "j1").claims.role
          = demoUser.role
      ∧ (demoManager.generateAccessToken demoUser 100 "j1").claims.scopes
          = demoUser.scopes) :=
  ⟨⟨by decide, by decide⟩,
    spec_C6 demoManager demoUser 100 "j1" 200 (by decide) (by decide)⟩

end ArcaGateway
